import Mathlib

/-!
Verification of the usage-cost accounting and budget-enforcement subsystem
of the xint-rs skill (src/skills/0xnyk/xint-rs).

The ledger core (`src/costs.rs`) is not among the available source files;
only its test module (`src/costs_test.rs`) and its callers
(`src/commands/profile.rs`, `tweet.rs`, `thread.rs`) are. The ledger
operations below are therefore modelled from the specification, faithful
to its words, while the command layer (`profile.rs`) is embedded directly
from its source.

Monetary values are modelled as exact rationals (the Rust code uses f64;
at the magnitudes involved the spec and tests treat the arithmetic as
exact up to a 0.001 tolerance, which rational arithmetic satisfies).
Timestamps are seconds as naturals. The file system is a finite map from
paths to file contents, plus a flag letting us discuss write failures;
file contents either parse as a ledger or are malformed.
-/

/-- Modelled from the spec: one `CostEntry` record per tracked action
(spec section 3). The field `tweets_read` carries the billable unit
count, the name the test module `costs_test.rs` uses for it. -/
structure CostEntry where
  timestamp : Nat
  operation : String
  endpoint : String
  tweets_read : Nat
  cost_usd : ℚ
deriving DecidableEq

/-- Modelled from the spec: the persisted aggregate — an append-only
entry sequence plus the single mutable budget scalar (spec section 3). -/
structure Ledger where
  entries : List CostEntry
  budget_limit_usd : ℚ
deriving DecidableEq

/-- Modelled from the spec: default budget limit of 1.00 USD when the
ledger is first created (spec section 6). -/
def default_budget_limit : ℚ := 1

/-- Modelled from the spec: the implicit empty ledger used when the
backing file does not exist (spec section 3, lifecycle). -/
def Ledger.empty : Ledger :=
  ⟨[], default_budget_limit⟩

/-- A persisted file either parses as a ledger or is malformed; the spec
requires the persistence layer to distinguish these (spec section 7). -/
inductive FileData where
  | ledger (l : Ledger)
  | malformed
deriving DecidableEq

/-- The file-system state the ledger store runs against: a finite map
from path to file content, plus a flag modelling an environment in which
writing to disk fails (spec section 4.2, record's failure behaviour). -/
structure FileSystem where
  files : List (String × FileData)
  write_fails : Bool
deriving DecidableEq

/-- Read the file at a path, `none` when absent. -/
def FileSystem.read (fs : FileSystem) (path : String) : Option FileData :=
  (fs.files.find? (fun p => p.1 == path)).map Prod.snd

/-- Rewrite the file at a path in full (spec section 3: the ledger is
rewritten in full on every append or budget change). When writing fails
the file system is left unchanged. -/
def FileSystem.write (fs : FileSystem) (path : String) (l : Ledger) : FileSystem :=
  if fs.write_fails then fs
  else ⟨(path, FileData.ledger l) :: fs.files.filter (fun p => ¬(p.1 == path)), fs.write_fails⟩

/-- Modelled from the spec: the Rate Table `cost_rate` of the missing
`src/costs.rs`, mapping an operation name to a `(per_unit, per_call)`
pair (spec section 4.1 and the expected values in `costs_test.rs`):
read-heavy operations are 0.005 USD per unit, engagement operations a
flat 0.01 USD per call, trends a flat 0.10 USD per call, and every
unknown operation falls back to `(0.005, 0)`. -/
def cost_rate (operation : String) : ℚ × ℚ :=
  if operation = "search" then (5/1000, 0)
  else if operation = "thread" then (5/1000, 0)
  else if operation = "profile" then (5/1000, 0)
  else if operation = "like" then (0, 1/100)
  else if operation = "bookmark" then (0, 1/100)
  else if operation = "trends" then (0, 1/10)
  else (5/1000, 0)

/-- Modelled from the spec: loading the ledger from a path — a missing
file is the implicit empty ledger with the default budget, a malformed
file is a fatal error (spec sections 4.2 and 7). -/
def load_ledger (fs : FileSystem) (path : String) : Except Unit Ledger :=
  match fs.read path with
  | none => Except.ok Ledger.empty
  | some (FileData.ledger l) => Except.ok l
  | some FileData.malformed => Except.error ()

/-- The entry `track_cost` creates: stamped with `now`, holding the unit
count and the price `units * per_unit + per_call` computed once, at
creation time, from the current rate table (spec section 3). -/
def new_entry (operation endpoint : String) (units now : Nat) : CostEntry :=
  ⟨now, operation, endpoint, units,
    units * (cost_rate operation).1 + (cost_rate operation).2⟩

/-- Modelled from the spec: `track_cost` (the spec's `record`) of the
missing `src/costs.rs`: load (or initialize) the ledger, look up the
rate, compute `cost_usd = units * per_unit + per_call`, append one entry
stamped `now`, persist, and return the entry by value. A write failure
is swallowed (the entry is still returned); a malformed existing file is
fatal (spec sections 4.2 and 7). -/
def track_cost (fs : FileSystem) (path operation endpoint : String)
    (units : Nat) (now : Nat) : Except Unit (CostEntry × FileSystem) := do
  let ledger ← load_ledger fs path
  let entry := new_entry operation endpoint units now
  Except.ok (entry, fs.write path ⟨ledger.entries ++ [entry], ledger.budget_limit_usd⟩)

/-- Modelled from the spec: the derived, non-persisted budget snapshot
(spec section 3). -/
structure BudgetStatus where
  limit : ℚ
  spent : ℚ
deriving DecidableEq

/-- Sum of `cost_usd` over a list of entries. -/
def spent_in (entries : List CostEntry) : ℚ :=
  (entries.map (fun e => e.cost_usd)).sum

/-- Modelled from the spec: `check_budget` of the missing `src/costs.rs`
— load the ledger, sum `cost_usd` over the all-time window, return
`(limit, spent)`; read-only, a missing file is not an error (spec
section 4.2). -/
def check_budget (fs : FileSystem) (path : String) : Except Unit BudgetStatus := do
  let ledger ← load_ledger fs path
  Except.ok ⟨ledger.budget_limit_usd, spent_in ledger.entries⟩

/-- Modelled from the spec: `set_budget` of the missing `src/costs.rs` —
reject a negative limit before any write, otherwise load (or
initialize), overwrite `budget_limit_usd`, persist (spec section 4.2). -/
def set_budget (fs : FileSystem) (path : String) (new_limit : ℚ) :
    Except Unit FileSystem := do
  if new_limit < 0 then Except.error ()
  else do
    let ledger ← load_ledger fs path
    Except.ok (fs.write path ⟨ledger.entries, new_limit⟩)

/-- Modelled from the spec: the window label of the four reporting
periods (spec section 4.2: "Today" / "This Week" / "This Month" /
"All Time"). -/
def period_label (period : String) : String :=
  if period = "today" then "Today"
  else if period = "week" then "This Week"
  else if period = "month" then "This Month"
  else "All Time"

/-- Modelled from the spec: the inclusive lower timestamp bound of a
trailing reporting window anchored at `now` (spec section 4.2: today =
trailing day, week = trailing 7 days, month = trailing 30 days, all =
no filter). -/
def period_cutoff (period : String) (now : Nat) : Nat :=
  if period = "today" then now - 86400
  else if period = "week" then now - 7 * 86400
  else if period = "month" then now - 30 * 86400
  else 0

/-- Entries of a ledger falling inside the reporting window. -/
def window_entries (l : Ledger) (period : String) (now : Nat) : List CostEntry :=
  l.entries.filter (fun e => period_cutoff period now ≤ e.timestamp)

/-- Operations appearing in a list of entries, in order of first
appearance, used for the per-operation breakdown. -/
def distinct_ops (entries : List CostEntry) : List String :=
  entries.foldl (fun acc e => if e.operation ∈ acc then acc else acc ++ [e.operation]) []

/-- One breakdown line per distinct operation of the window. -/
def render_breakdown (entries : List CostEntry) : String :=
  String.intercalate "\n"
    ((distinct_ops entries).map (fun op =>
      "  " ++ op ++ ": $" ++ toString (spent_in (entries.filter (fun e => e.operation == op)))))

/-- Modelled from the spec: `get_cost_summary` (the spec's `summarize`)
of the missing `src/costs.rs` — filter the entries to the period's
window, render a report holding the title marker "API Costs", the window
label, the total spend and a per-operation breakdown (spec section 4.2
and the markers asserted by `costs_test.rs`). -/
def get_cost_summary (fs : FileSystem) (path period : String) (now : Nat) :
    Except Unit String := do
  let ledger ← load_ledger fs path
  let filtered := window_entries ledger period now
  Except.ok ("API Costs" ++ (" (" ++ (period_label period ++ (")\nTotal: $"
    ++ (toString (spent_in filtered)
    ++ ("\nBudget: $" ++ (toString ledger.budget_limit_usd
    ++ ("\n" ++ render_breakdown filtered))))))))

/-- Embedded from `src/commands/profile.rs` (lines 19-24): after fetching
the user and the tweet list, the profile command tracks the cost with
operation "profile", the user-lookup endpoint, and `tweets.len() + 1`
units. The fetched tweets are opaque here; only their count matters. -/
def profile_run_track {α : Type} (fs : FileSystem) (costs_path username : String)
    (tweets : List α) (now : Nat) : Except Unit (CostEntry × FileSystem) :=
  track_cost fs costs_path "profile" ("/2/users/by/username/" ++ username)
    (tweets.length + 1) now

/-- Recording a batch of `(operation, endpoint, units, now)` requests at
one path, one `track_cost` call each, returning the entries the
individual calls returned together with the final file system. -/
def record_all (path : String) : FileSystem → List (String × String × Nat × Nat) →
    Except Unit (List CostEntry × FileSystem)
  | fs, [] => Except.ok ([], fs)
  | fs, (op, ep, u, t) :: rs => do
      let (e, fs₂) ← track_cost fs path op ep u t
      let (es, fs₃) ← record_all path fs₂ rs
      Except.ok (e :: es, fs₃)

/-- Containment of one string in another, witnessed by a decomposition. -/
def str_contains (s sub : String) : Prop :=
  ∃ a b : String, s = a ++ sub ++ b

lemma str_contains_of_append (a s b : String) : str_contains (a ++ (s ++ b)) s :=
  ⟨a, b, (String.append_assoc a s b).symm⟩

lemma str_contains_head (s t : String) : str_contains (s ++ t) s :=
  ⟨"", t, rfl⟩

lemma write_fails_write (fs : FileSystem) (path : String) (l : Ledger) :
    (fs.write path l).write_fails = fs.write_fails := by
  unfold FileSystem.write
  split <;> rfl

lemma load_after_write (fs : FileSystem) (path : String) (l : Ledger)
    (hw : fs.write_fails = false) :
    load_ledger (fs.write path l) path = Except.ok l := by
  simp [load_ledger, FileSystem.read, FileSystem.write, hw, List.find?]

lemma track_cost_of_ok {fs : FileSystem} {path : String} {l : Ledger}
    (operation endpoint : String) (units now : Nat)
    (hl : load_ledger fs path = Except.ok l) :
    track_cost fs path operation endpoint units now =
      Except.ok (new_entry operation endpoint units now,
        fs.write path ⟨l.entries ++ [new_entry operation endpoint units now],
          l.budget_limit_usd⟩) := by
  unfold track_cost
  rw [hl]
  rfl

lemma cost_rate_nonneg (operation : String) :
    0 ≤ (cost_rate operation).1 ∧ 0 ≤ (cost_rate operation).2 := by
  unfold cost_rate
  split_ifs <;> constructor <;> norm_num

lemma record_all_ok (path : String) (reqs : List (String × String × Nat × Nat)) :
    ∀ fs l, fs.write_fails = false → load_ledger fs path = Except.ok l →
    ∃ es fs₂, record_all path fs reqs = Except.ok (es, fs₂) ∧
      es.length = reqs.length ∧ fs₂.write_fails = false ∧
      load_ledger fs₂ path = Except.ok ⟨l.entries ++ es, l.budget_limit_usd⟩ := by
  induction reqs with
  | nil =>
    intro fs l hw hl
    exact ⟨[], fs, rfl, rfl, hw, by simpa using hl⟩
  | cons r rs ih =>
    intro fs l hw hl
    obtain ⟨op, ep, u, t⟩ := r
    have htc := track_cost_of_ok op ep u t hl
    have hw₂ : (fs.write path ⟨l.entries ++ [new_entry op ep u t],
        l.budget_limit_usd⟩).write_fails = false := by
      rw [write_fails_write]; exact hw
    have hl₂ := load_after_write fs path
      ⟨l.entries ++ [new_entry op ep u t], l.budget_limit_usd⟩ hw
    obtain ⟨es, fs₂, hrec, hlen, hwf, hload⟩ := ih _ _ hw₂ hl₂
    refine ⟨new_entry op ep u t :: es, fs₂, ?_, by simp [hlen], hwf, ?_⟩
    · have h1 : record_all path fs ((op, ep, u, t) :: rs) =
          Except.bind (track_cost fs path op ep u t) (fun p =>
            Except.bind (record_all path p.2 rs) (fun q =>
              Except.ok (p.1 :: q.1, q.2))) := rfl
      rw [h1, htc]
      show Except.bind
          (record_all path
            (fs.write path ⟨l.entries ++ [new_entry op ep u t], l.budget_limit_usd⟩) rs)
          (fun q => Except.ok (new_entry op ep u t :: q.1, q.2)) =
        Except.ok (new_entry op ep u t :: es, fs₂)
      rw [hrec]
      rfl
    · simpa [List.append_assoc] using hload

lemma window_entries_all (l : Ledger) (now : Nat) :
    window_entries l "all" now = l.entries := by
  unfold window_entries period_cutoff
  simp

/-- C1: for every path, operation, endpoint and unit count, `track_cost`
appends exactly one new entry to the ledger at that path, and the
returned entry satisfies
`cost_usd = units * per_unit_rate + per_call_rate`, computed once at
creation; in particular recording "search" with 10 units returns an
entry with `units = 10` and `cost_usd` within 0.001 of 0.05. -/
theorem track_cost_appends_one_priced_entry (fs : FileSystem)
    (path op ep : String) (units now : Nat) (l : Ledger)
    (hl : load_ledger fs path = Except.ok l)
    (hw : fs.write_fails = false) :
    ∃ e fs₂, track_cost fs path op ep units now = Except.ok (e, fs₂) ∧
      load_ledger fs₂ path = Except.ok ⟨l.entries ++ [e], l.budget_limit_usd⟩ ∧
      e.tweets_read = units ∧
      e.cost_usd = units * (cost_rate op).1 + (cost_rate op).2 ∧
      (op = "search" → units = 10 → |e.cost_usd - 5/100| < 1/1000) := by
  refine ⟨new_entry op ep units now, _, track_cost_of_ok op ep units now hl,
    load_after_write fs path _ hw, rfl, rfl, ?_⟩
  rintro rfl rfl
  norm_num [new_entry, cost_rate]

/-- Concrete run of C1: recording "search" with 10 units on a fresh
file system. -/
theorem track_cost_appends_one_priced_entry_witness :
    load_ledger ⟨[], false⟩ "costs.json" = Except.ok Ledger.empty ∧
    (FileSystem.mk [] false).write_fails = false ∧
    ∃ e fs₂,
      track_cost ⟨[], false⟩ "costs.json" "search" "/2/tweets/search/recent" 10 0 =
        Except.ok (e, fs₂) ∧
      load_ledger fs₂ "costs.json" =
        Except.ok ⟨Ledger.empty.entries ++ [e], Ledger.empty.budget_limit_usd⟩ ∧
      e.tweets_read = 10 ∧
      e.cost_usd = ((10 : Nat) : ℚ) * (cost_rate "search").1 + (cost_rate "search").2 ∧
      ("search" = "search" → (10 : Nat) = 10 → |e.cost_usd - 5/100| < 1/1000) :=
  ⟨rfl, rfl, track_cost_appends_one_priced_entry ⟨[], false⟩ "costs.json" "search"
    "/2/tweets/search/recent" 10 0 Ledger.empty rfl rfl⟩

/-- C2: `cost_rate` is a total function of the operation string with
`cost_rate "search" = (0.005, 0)`, `cost_rate "like" = (0, 0.01)`,
`cost_rate "trends" = (0, 0.10)`, and every string outside the known
operation names gets the fallback `(0.005, 0)`. -/
theorem cost_rate_known_and_fallback :
    cost_rate "search" = (5/1000, 0) ∧
    cost_rate "like" = (0, 1/100) ∧
    cost_rate "trends" = (0, 1/10) ∧
    ∀ op : String,
      op ∉ (["search", "thread", "profile", "like", "bookmark", "trends"] : List String) →
      cost_rate op = (5/1000, 0) := by
  refine ⟨rfl, rfl, rfl, ?_⟩
  intro op h
  simp only [List.mem_cons, List.not_mem_nil, or_false, not_or] at h
  obtain ⟨h1, h2, h3, h4, h5, h6⟩ := h
  simp [cost_rate, h1, h2, h3, h4, h5, h6]

/-- Concrete run of C2's fallback clause at an unrecognized name. -/
theorem cost_rate_known_and_fallback_witness :
    "unknown_operation" ∉
      (["search", "thread", "profile", "like", "bookmark", "trends"] : List String) ∧
    cost_rate "unknown_operation" = (5/1000, 0) :=
  ⟨by decide, cost_rate_known_and_fallback.2.2.2 "unknown_operation" (by decide)⟩

/-- C4: `check_budget` on a path with no ledger file succeeds and
returns the default limit of 1.00 USD (positive) with zero spend. -/
theorem check_budget_missing_ledger (fs : FileSystem) (path : String)
    (hmiss : fs.read path = none) :
    ∃ st, check_budget fs path = Except.ok st ∧
      st.limit = 1 ∧ 0 < st.limit ∧ st.spent = 0 := by
  refine ⟨⟨default_budget_limit, 0⟩, ?_, rfl, by norm_num [default_budget_limit], rfl⟩
  unfold check_budget load_ledger
  rw [hmiss]
  rfl

/-- Concrete run of C4 on an empty file system. -/
theorem check_budget_missing_ledger_witness :
    (FileSystem.mk [] false).read "costs.json" = none ∧
    ∃ st, check_budget ⟨[], false⟩ "costs.json" = Except.ok st ∧
      st.limit = 1 ∧ 0 < st.limit ∧ st.spent = 0 :=
  ⟨rfl, check_budget_missing_ledger ⟨[], false⟩ "costs.json" rfl⟩

/-- C6: persisting a ledger and reloading it from the same path
reproduces an equal ledger: the same entries in the same order and the
same budget limit. -/
theorem ledger_round_trip (fs : FileSystem) (path : String) (l : Ledger)
    (hw : fs.write_fails = false) :
    ∃ l₂, load_ledger (fs.write path l) path = Except.ok l₂ ∧
      l₂.entries = l.entries ∧ l₂.budget_limit_usd = l.budget_limit_usd :=
  ⟨l, load_after_write fs path l hw, rfl, rfl⟩

/-- Concrete run of C6 with a one-entry ledger. -/
theorem ledger_round_trip_witness :
    (FileSystem.mk [] false).write_fails = false ∧
    ∃ l₂, load_ledger
        ((FileSystem.mk [] false).write "costs.json"
          ⟨[⟨0, "search", "/2/tweets/search/recent", 10, 1⟩], 2⟩) "costs.json" =
        Except.ok l₂ ∧
      l₂.entries = [⟨0, "search", "/2/tweets/search/recent", 10, 1⟩] ∧
      l₂.budget_limit_usd = 2 :=
  ⟨rfl, ledger_round_trip ⟨[], false⟩ "costs.json"
    ⟨[⟨0, "search", "/2/tweets/search/recent", 10, 1⟩], 2⟩ rfl⟩

/-- C7: even when persisting the updated ledger fails, `track_cost`
still returns the in-memory computed entry (the file system is left as
it was, and no error is surfaced in place of the entry). -/
theorem track_cost_survives_write_failure (fs : FileSystem)
    (path op ep : String) (units now : Nat) (l : Ledger)
    (hl : load_ledger fs path = Except.ok l)
    (hw : fs.write_fails = true) :
    track_cost fs path op ep units now =
      Except.ok (new_entry op ep units now, fs) ∧
    (new_entry op ep units now).cost_usd =
      units * (cost_rate op).1 + (cost_rate op).2 := by
  refine ⟨?_, rfl⟩
  rw [track_cost_of_ok op ep units now hl]
  unfold FileSystem.write
  rw [if_pos hw]

/-- Concrete run of C7 on a file system whose writes fail. -/
theorem track_cost_survives_write_failure_witness :
    load_ledger ⟨[], true⟩ "costs.json" = Except.ok Ledger.empty ∧
    (FileSystem.mk [] true).write_fails = true ∧
    (track_cost ⟨[], true⟩ "costs.json" "like" "/2/users/me/likes" 1 0 =
      Except.ok (new_entry "like" "/2/users/me/likes" 1 0, ⟨[], true⟩) ∧
    (new_entry "like" "/2/users/me/likes" 1 0).cost_usd =
      ((1 : Nat) : ℚ) * (cost_rate "like").1 + (cost_rate "like").2) :=
  ⟨rfl, rfl, track_cost_survives_write_failure ⟨[], true⟩ "costs.json"
    "like" "/2/users/me/likes" 1 0 Ledger.empty rfl rfl⟩

/-- C3: for every N, after recording N entries at a fresh path the
`spent` value of `check_budget` over the all-time window equals the sum
of the `cost_usd` values of the N entries the individual calls
returned. -/
theorem check_budget_spent_sums_recorded (fs : FileSystem) (path : String)
    (reqs : List (String × String × Nat × Nat))
    (hmiss : fs.read path = none) (hw : fs.write_fails = false) :
    ∃ es fs₂, record_all path fs reqs = Except.ok (es, fs₂) ∧
      es.length = reqs.length ∧
      check_budget fs₂ path =
        Except.ok ⟨default_budget_limit, (es.map (fun e => e.cost_usd)).sum⟩ := by
  have hl : load_ledger fs path = Except.ok Ledger.empty := by
    unfold load_ledger
    rw [hmiss]
  obtain ⟨es, fs₂, hrec, hlen, hwf, hload⟩ :=
    record_all_ok path reqs fs Ledger.empty hw hl
  refine ⟨es, fs₂, hrec, hlen, ?_⟩
  unfold check_budget
  rw [hload]
  rfl

/-- Concrete run of C3: recording two entries on a fresh file system. -/
theorem check_budget_spent_sums_recorded_witness :
    (FileSystem.mk [] false).read "costs.json" = none ∧
    (FileSystem.mk [] false).write_fails = false ∧
    ∃ es fs₂,
      record_all "costs.json" ⟨[], false⟩
          [("search", "/2/tweets/search/recent", 10, 0), ("like", "/2/likes", 1, 5)] =
        Except.ok (es, fs₂) ∧
      es.length =
        ([("search", "/2/tweets/search/recent", 10, 0), ("like", "/2/likes", 1, 5)] :
          List (String × String × Nat × Nat)).length ∧
      check_budget fs₂ "costs.json" =
        Except.ok ⟨default_budget_limit, (es.map (fun e => e.cost_usd)).sum⟩ :=
  ⟨rfl, rfl, check_budget_spent_sums_recorded ⟨[], false⟩ "costs.json"
    [("search", "/2/tweets/search/recent", 10, 0), ("like", "/2/likes", 1, 5)] rfl rfl⟩

/-- C5: `set_budget` with a non-negative limit persists it so that a
subsequent `check_budget` on the same path reports exactly that limit
(in particular 5 after setting 5); a negative limit is rejected before
any write, leaving the stored limit unchanged. -/
theorem set_budget_persists_nonneg_rejects_negative (fs : FileSystem)
    (path : String) (l : Ledger)
    (hl : load_ledger fs path = Except.ok l) (hw : fs.write_fails = false) :
    (∀ q : ℚ, 0 ≤ q → ∃ fs₂, set_budget fs path q = Except.ok fs₂ ∧
      ∃ st, check_budget fs₂ path = Except.ok st ∧ st.limit = q) ∧
    (∀ q : ℚ, q < 0 → set_budget fs path q = Except.error ()) ∧
    (∃ fs₂, set_budget fs path 5 = Except.ok fs₂ ∧
      (∃ st, check_budget fs₂ path = Except.ok st ∧ st.limit = 5) ∧
      set_budget fs₂ path (-1) = Except.error () ∧
      ∃ st, check_budget fs₂ path = Except.ok st ∧ st.limit = 5) := by
  have hset : ∀ q : ℚ, 0 ≤ q →
      set_budget fs path q = Except.ok (fs.write path ⟨l.entries, q⟩) := by
    intro q hq
    unfold set_budget
    rw [if_neg (not_lt.2 hq), hl]
    rfl
  have hcheck : ∀ q : ℚ, check_budget (fs.write path ⟨l.entries, q⟩) path =
      Except.ok ⟨q, spent_in l.entries⟩ := by
    intro q
    unfold check_budget
    rw [load_after_write fs path ⟨l.entries, q⟩ hw]
    rfl
  have hneg : ∀ (g : FileSystem) (q : ℚ), q < 0 →
      set_budget g path q = Except.error () := by
    intro g q hq
    unfold set_budget
    rw [if_pos hq]
  refine ⟨fun q hq => ⟨_, hset q hq, ⟨q, spent_in l.entries⟩, hcheck q, rfl⟩,
    fun q hq => hneg fs q hq,
    ⟨_, hset 5 (by norm_num), ⟨⟨5, spent_in l.entries⟩, hcheck 5, rfl⟩,
      hneg _ (-1) (by norm_num), ⟨5, spent_in l.entries⟩, hcheck 5, rfl⟩⟩

/-- Concrete run of C5 on a fresh file system. -/
theorem set_budget_persists_nonneg_rejects_negative_witness :
    load_ledger ⟨[], false⟩ "costs.json" = Except.ok Ledger.empty ∧
    (FileSystem.mk [] false).write_fails = false ∧
    ((∀ q : ℚ, 0 ≤ q → ∃ fs₂, set_budget ⟨[], false⟩ "costs.json" q = Except.ok fs₂ ∧
      ∃ st, check_budget fs₂ "costs.json" = Except.ok st ∧ st.limit = q) ∧
    (∀ q : ℚ, q < 0 → set_budget ⟨[], false⟩ "costs.json" q = Except.error ()) ∧
    (∃ fs₂, set_budget ⟨[], false⟩ "costs.json" 5 = Except.ok fs₂ ∧
      (∃ st, check_budget fs₂ "costs.json" = Except.ok st ∧ st.limit = 5) ∧
      set_budget fs₂ "costs.json" (-1) = Except.error () ∧
      ∃ st, check_budget fs₂ "costs.json" = Except.ok st ∧ st.limit = 5)) :=
  ⟨rfl, rfl, set_budget_persists_nonneg_rejects_negative ⟨[], false⟩ "costs.json"
    Ledger.empty rfl rfl⟩

/-- C9: when the file at a path exists but is malformed, every operation
that must read the ledger fails; when the file is absent, loading yields
the implicit empty ledger with the default budget — the persistence
layer distinguishes the two cases. -/
theorem malformed_fatal_absent_default (fs : FileSystem) (path : String) :
    (fs.read path = some FileData.malformed →
      load_ledger fs path = Except.error () ∧
      check_budget fs path = Except.error () ∧
      (∀ op ep : String, ∀ units now : Nat,
        track_cost fs path op ep units now = Except.error ()) ∧
      (∀ q : ℚ, 0 ≤ q → set_budget fs path q = Except.error ()) ∧
      (∀ period : String, ∀ now : Nat,
        get_cost_summary fs path period now = Except.error ())) ∧
    (fs.read path = none →
      load_ledger fs path = Except.ok Ledger.empty ∧
      check_budget fs path = Except.ok ⟨default_budget_limit, 0⟩) := by
  constructor
  · intro h
    have hload : load_ledger fs path = Except.error () := by
      unfold load_ledger
      rw [h]
    refine ⟨hload, ?_, ?_, ?_, ?_⟩
    · unfold check_budget
      rw [hload]
      rfl
    · intro op ep units now
      unfold track_cost
      rw [hload]
      rfl
    · intro q hq
      unfold set_budget
      rw [if_neg (not_lt.2 hq), hload]
      rfl
    · intro period now
      unfold get_cost_summary
      rw [hload]
      rfl
  · intro h
    have hload : load_ledger fs path = Except.ok Ledger.empty := by
      unfold load_ledger
      rw [h]
    refine ⟨hload, ?_⟩
    unfold check_budget
    rw [hload]
    rfl

/-- Concrete runs of C9: a malformed file is fatal for `check_budget`,
an absent file is not. -/
theorem malformed_fatal_absent_default_witness :
    ((FileSystem.mk [("costs.json", FileData.malformed)] false).read "costs.json" =
        some FileData.malformed ∧
      check_budget ⟨[("costs.json", FileData.malformed)], false⟩ "costs.json" =
        Except.error ()) ∧
    ((FileSystem.mk [] false).read "costs.json" = none ∧
      check_budget ⟨[], false⟩ "costs.json" =
        Except.ok ⟨default_budget_limit, 0⟩) :=
  ⟨⟨rfl, ((malformed_fatal_absent_default
      ⟨[("costs.json", FileData.malformed)], false⟩ "costs.json").1 rfl).2.1⟩,
   ⟨rfl, ((malformed_fatal_absent_default ⟨[], false⟩ "costs.json").2 rfl).2⟩⟩

/-- C10: the profile command tracks its cost with operation "profile"
and `tweets.len() + 1` units — one extra unit for the user lookup beyond
the tweets read — so the appended entry records `units = k + 1`
(embedded from `src/commands/profile.rs`, lines 19-24). -/
theorem profile_bills_tweets_plus_one {α : Type} (fs : FileSystem)
    (costs_path username : String) (tweets : List α) (now : Nat) (l : Ledger)
    (hl : load_ledger fs costs_path = Except.ok l)
    (hw : fs.write_fails = false) :
    ∃ e fs₂, profile_run_track fs costs_path username tweets now =
        Except.ok (e, fs₂) ∧
      e.operation = "profile" ∧
      e.endpoint = "/2/users/by/username/" ++ username ∧
      e.tweets_read = tweets.length + 1 ∧
      load_ledger fs₂ costs_path =
        Except.ok ⟨l.entries ++ [e], l.budget_limit_usd⟩ :=
  ⟨new_entry "profile" ("/2/users/by/username/" ++ username) (tweets.length + 1) now,
    _,
    track_cost_of_ok "profile" ("/2/users/by/username/" ++ username)
      (tweets.length + 1) now hl,
    rfl, rfl, rfl,
    load_after_write fs costs_path _ hw⟩

/-- Concrete run of C10: a profile fetch of 3 tweets is billed 4 units. -/
theorem profile_bills_tweets_plus_one_witness :
    load_ledger ⟨[], false⟩ "costs.json" = Except.ok Ledger.empty ∧
    (FileSystem.mk [] false).write_fails = false ∧
    ∃ e fs₂, profile_run_track ⟨[], false⟩ "costs.json" "jack"
        ([0, 1, 2] : List Nat) 0 = Except.ok (e, fs₂) ∧
      e.operation = "profile" ∧
      e.endpoint = "/2/users/by/username/" ++ "jack" ∧
      e.tweets_read = ([0, 1, 2] : List Nat).length + 1 ∧
      load_ledger fs₂ "costs.json" =
        Except.ok ⟨Ledger.empty.entries ++ [e], Ledger.empty.budget_limit_usd⟩ :=
  ⟨rfl, rfl, profile_bills_tweets_plus_one ⟨[], false⟩ "costs.json" "jack"
    ([0, 1, 2] : List Nat) 0 Ledger.empty rfl rfl⟩

/-- C8: `get_cost_summary` with period "today" returns text containing
the cost-report title marker and the "Today" window label; with period
"all" it returns text containing "All Time" and a total spend at least
the cost of any single recorded entry (entry costs are non-negative for
recorded entries, which the hypothesis reflects); the labels of the four
periods are "Today", "This Week", "This Month" and "All Time". -/
theorem get_cost_summary_labels_and_total (fs : FileSystem) (path : String)
    (now : Nat) (l : Ledger) (hl : load_ledger fs path = Except.ok l)
    (hpos : ∀ e ∈ l.entries, 0 ≤ e.cost_usd) :
    (∃ s, get_cost_summary fs path "today" now = Except.ok s ∧
      str_contains s "API Costs" ∧ str_contains s "Today") ∧
    (∃ s, get_cost_summary fs path "all" now = Except.ok s ∧
      str_contains s "API Costs" ∧ str_contains s "All Time" ∧
      ∀ e ∈ l.entries, e.cost_usd ≤ spent_in (window_entries l "all" now)) ∧
    period_label "today" = "Today" ∧ period_label "week" = "This Week" ∧
    period_label "month" = "This Month" ∧ period_label "all" = "All Time" := by
  have hsum : ∀ period : String, get_cost_summary fs path period now =
      Except.ok ("API Costs" ++ (" (" ++ (period_label period ++ (")\nTotal: $"
        ++ (toString (spent_in (window_entries l period now))
        ++ ("\nBudget: $" ++ (toString l.budget_limit_usd
        ++ ("\n" ++ render_breakdown (window_entries l period now))))))))) := by
    intro period
    unfold get_cost_summary
    rw [hl]
    rfl
  refine ⟨⟨_, hsum "today", str_contains_head "API Costs" _, ?_⟩,
    ⟨_, hsum "all", str_contains_head "API Costs" _, ?_, ?_⟩, rfl, rfl, rfl, rfl⟩
  · exact str_contains_of_append ("API Costs" ++ " (") "Today"
      (")\nTotal: $" ++ (toString (spent_in (window_entries l "today" now))
        ++ ("\nBudget: $" ++ (toString l.budget_limit_usd
        ++ ("\n" ++ render_breakdown (window_entries l "today" now))))))
  · exact str_contains_of_append ("API Costs" ++ " (") "All Time"
      (")\nTotal: $" ++ (toString (spent_in (window_entries l "all" now))
        ++ ("\nBudget: $" ++ (toString l.budget_limit_usd
        ++ ("\n" ++ render_breakdown (window_entries l "all" now))))))
  · rw [window_entries_all]
    intro e he
    unfold spent_in
    refine List.single_le_sum ?_ _ (List.mem_map_of_mem _ he)
    intro x hx
    obtain ⟨a, ha, rfl⟩ := List.mem_map.1 hx
    exact hpos a ha

/-- Concrete run of C8 on a fresh (empty) ledger. -/
theorem get_cost_summary_labels_and_total_witness :
    load_ledger ⟨[], false⟩ "costs.json" = Except.ok Ledger.empty ∧
    (∀ e ∈ Ledger.empty.entries, 0 ≤ e.cost_usd) ∧
    ((∃ s, get_cost_summary ⟨[], false⟩ "costs.json" "today" 0 = Except.ok s ∧
      str_contains s "API Costs" ∧ str_contains s "Today") ∧
    (∃ s, get_cost_summary ⟨[], false⟩ "costs.json" "all" 0 = Except.ok s ∧
      str_contains s "API Costs" ∧ str_contains s "All Time" ∧
      ∀ e ∈ Ledger.empty.entries, e.cost_usd ≤
        spent_in (window_entries Ledger.empty "all" 0)) ∧
    period_label "today" = "Today" ∧ period_label "week" = "This Week" ∧
    period_label "month" = "This Month" ∧ period_label "all" = "All Time") :=
  ⟨rfl, by decide, get_cost_summary_labels_and_total ⟨[], false⟩ "costs.json" 0
    Ledger.empty rfl (by decide)⟩
